import Mathlib

/-
Verification development for the route-optimization core of the `routing`
repository (src/routing/route/routing.py).

Modelling conventions:
* Python floats are modelled as rationals (ℚ).  `round(x, 2)` is modelled by
  `round2` (floor-based round-half-up on hundredths; no claim under study
  depends on the tie direction of Python's round-half-even).
* `geopy.distance.geodesic(...).miles` is an external library call; every
  function that uses it is parameterized by an abstract distance function
  `gdist : Coordinates → Coordinates → ℚ`.  Concrete evaluations instantiate
  it with explicit stand-in metrics (`gdistL1`, `gdistLat`).
* The process-wide mutable station catalog (`GAS_STOPS`, mutated in place by
  `select_cheapest_gas_stop`) is modelled by threading the catalog as explicit
  state (`List GasStop`), with stations identified by their index into it.
  Lists of station references become lists of indices, resolved against the
  final catalog state when the `OptimalRoute` value is read — which is exactly
  when Python reads the (aliased, possibly further mutated) records.
-/

/-- `round(x, 2)`: rounding to 2 decimal places. -/
def round2 (q : ℚ) : ℚ := ((⌊q * 100 + 1 / 2⌋ : ℤ) : ℚ) / 100

-- Tunable constants from routing.py (lines 17-24).
def GAS_EFFICIENCY : ℚ := 10
def VEHICLE_RANGE : ℚ := 500
def WAYPOINT_INTERVAL : ℚ := 450
def GAS_SEARCH_RADIUS : ℚ := 20
def DETOUR_ALLOWANCE : ℚ := 10
def HIGHWAY_BONUS : ℚ := 1 / 20

structure Coordinates where
  latitude : ℚ
  longitude : ℚ
deriving DecidableEq, Repr

instance : Inhabited Coordinates := ⟨⟨0, 0⟩⟩

structure GasStop where
  truckstop_id : String
  name : String
  address : String
  city : String
  state : String
  coordinates : Coordinates
  price_per_gallon : ℚ
deriving DecidableEq, Repr

instance : Inhabited GasStop :=
  ⟨⟨ "", "", "", "", "", ⟨0, 0⟩, 0⟩⟩

/-- The route bounding box `[min_lon, min_lat, max_lon, max_lat]`. -/
structure Bbox where
  min_lon : ℚ
  min_lat : ℚ
  max_lon : ℚ
  max_lat : ℚ
deriving DecidableEq, Repr

structure Route where
  origin_coordinates : Coordinates
  destination_coordinates : Coordinates
  distance : ℚ
  geometry : List Coordinates
  bbox : Bbox
deriving DecidableEq, Repr

structure RouteSegment where
  start_coordinates : Coordinates
  end_coordinates : Coordinates
  distance : ℚ
  gas_needed_gallons : ℚ
deriving DecidableEq, Repr

/-- Result record; station-reference lists are resolved `GasStop` values. -/
structure OptimalRoute where
  total_distance : ℚ
  total_gas_cost : ℚ
  gas_stops : List GasStop
  route_coordinates : List Coordinates
  segments : List RouteSegment
  nearby_stations : List (List GasStop)
deriving DecidableEq, Repr

/-- Python's substring test `"I-" in address` on the address characters. -/
def hasMarker : List Char → Bool
  | 'I' :: '-' :: _ => true
  | _ :: rest => hasMarker rest
  | [] => false

/-- The first element of `l` attaining the minimum of `f`, as a left fold;
this is the semantics of Python's `min(l, key=f, default=None)` and of the
explicit best-so-far loop with a strict `<` update (routing.py lines 341-350,
272). -/
def foldFirstMin (f : α → ℚ) (l : List α) : Option α :=
  l.foldl (fun acc x =>
    match acc with
    | none => some x
    | some y => if f x < f y then some x else acc) none

/-- Recursive characterization of the first minimum. -/
def firstMinSpec (f : α → ℚ) : List α → Option α
  | [] => none
  | x :: rest =>
    match firstMinSpec f rest with
    | none => some x
    | some y => if f y < f x then some y else some x

theorem foldFirstMin_from_some (f : α → ℚ) (l : List α) (y : α) :
    l.foldl (fun acc x =>
      match acc with
      | none => some x
      | some y => if f x < f y then some x else acc) (some y) =
      (match firstMinSpec f l with
       | none => some y
       | some z => if f z < f y then some z else some y) := by
  induction l generalizing y with
  | nil => simp [firstMinSpec]
  | cons x rest ih =>
    simp only [List.foldl_cons]
    rcases hr : firstMinSpec f rest with _ | z
    · by_cases hxy : f x < f y
      · simp [hxy, ih, hr, firstMinSpec]
      · simp [hxy, ih, hr, firstMinSpec]
    · by_cases hxy : f x < f y
      · simp only [if_pos hxy, ih, hr, firstMinSpec]
        by_cases hzx : f z < f x
        · have hzy : f z < f y := lt_trans hzx hxy
          simp [hzx, hzy]
        · simp [hzx, hxy]
      · simp only [if_neg hxy, ih, hr, firstMinSpec]
        by_cases hzx : f z < f x
        · simp [hzx]
        · have hyx : f y ≤ f x := le_of_not_lt hxy
          have hxz : f x ≤ f z := le_of_not_lt hzx
          have : ¬ f z < f y := not_lt.mpr (le_trans hyx hxz)
          simp [hzx, hxy, this]

theorem foldFirstMin_eq_firstMinSpec (f : α → ℚ) (l : List α) :
    foldFirstMin f l = firstMinSpec f l := by
  cases l with
  | nil => rfl
  | cons x rest =>
    show List.foldl _ (some x) rest = _
    rw [foldFirstMin_from_some f rest x]
    cases hr : firstMinSpec f rest with
    | none => simp [firstMinSpec, hr]
    | some z => simp [firstMinSpec, hr]

theorem firstMinSpec_eq_none_iff (f : α → ℚ) (l : List α) :
    firstMinSpec f l = none ↔ l = [] := by
  cases l with
  | nil => simp [firstMinSpec]
  | cons x rest =>
    simp only [firstMinSpec]
    rcases hr : firstMinSpec f rest with _ | z
    · simp
    · by_cases hzx : f z < f x <;> simp [hzx]

/-- Positional characterization: on a non-empty list, the fold returns the
element at the first position attaining the minimum of `f`. -/
theorem foldFirstMin_first_min (f : α → ℚ) (d : α) (l : List α) (h : l ≠ []) :
    ∃ k, k < l.length ∧ foldFirstMin f l = some (l.getD k d) ∧
      (∀ m, m < l.length → f (l.getD k d) ≤ f (l.getD m d)) ∧
      (∀ m, m < k → f (l.getD k d) < f (l.getD m d)) := by
  rw [foldFirstMin_eq_firstMinSpec]
  induction l with
  | nil => exact absurd rfl h
  | cons x rest ih =>
    cases hr : firstMinSpec f rest with
    | none =>
      have hrest : rest = [] := (firstMinSpec_eq_none_iff f rest).mp hr
      subst hrest
      refine ⟨0, by simp, by simp [firstMinSpec], ?_, by omega⟩
      intro m hm
      have hm0 : m = 0 := by simpa using hm
      subst hm0
      exact le_refl _
    | some z =>
      have hrest : rest ≠ [] := by
        intro he
        rw [he] at hr
        simp [firstMinSpec] at hr
      obtain ⟨k, hk, hkeq, hmin, hstrict⟩ := ih hrest
      rw [hr] at hkeq
      have hz : z = rest.getD k d := Option.some.inj hkeq
      subst hz
      by_cases hzx : f (rest.getD k d) < f x
      · refine ⟨k + 1, by simpa using Nat.succ_lt_succ hk, ?_, ?_, ?_⟩
        · simp only [firstMinSpec, hr, List.getD_cons_succ]
          rw [if_pos hzx]
        · intro m hm
          match m with
          | 0 => exact le_of_lt hzx
          | m + 1 =>
            simp only [List.getD_cons_succ]
            exact hmin m (by simpa using Nat.lt_of_succ_lt_succ hm)
        · intro m hm
          match m with
          | 0 => exact hzx
          | m + 1 =>
            simp only [List.getD_cons_succ]
            exact hstrict m (Nat.lt_of_succ_lt_succ hm)
      · refine ⟨0, by simp, ?_, ?_, by omega⟩
        · simp only [firstMinSpec, hr, List.getD_cons_zero]
          rw [if_neg hzx]
        · intro m hm
          match m with
          | 0 => exact le_refl _
          | m + 1 =>
            simp only [List.getD_cons_zero, List.getD_cons_succ]
            have hxz : f x ≤ f (rest.getD k d) := le_of_not_lt hzx
            exact le_trans hxz (hmin m (by simpa using Nat.lt_of_succ_lt_succ hm))

theorem foldFirstMin_mem (f : α → ℚ) (l : List α) (x : α)
    (h : foldFirstMin f l = some x) : x ∈ l := by
  rcases l with _ | ⟨a, rest⟩
  · simp [foldFirstMin] at h
  · obtain ⟨k, hk, hkeq, -, -⟩ := foldFirstMin_first_min f a (a :: rest) (by simp)
    rw [h] at hkeq
    have hx : x = (a :: rest).getD k a := Option.some.inj hkeq
    subst hx
    have : (a :: rest).getD k a = (a :: rest)[k] := by
      simp [List.getD_eq_getElem?_getD, List.getElem?_eq_getElem hk]
    rw [this]
    exact List.getElem_mem hk

/-! ## Nearest-point search (routing.py lines 321-352) -/

/-- Lexicographic order on `(squared planar distance, original index)` pairs:
the comparison Python's `candidates.sort()` performs on its tuples. -/
def lexLe (a b : ℚ × ℕ) : Prop := a.1 < b.1 ∨ (a.1 = b.1 ∧ a.2 ≤ b.2)

instance : DecidableRel lexLe := fun a b => by
  unfold lexLe
  infer_instance

instance : IsTotal (ℚ × ℕ) lexLe := by
  constructor
  intro a b
  rcases lt_trichotomy a.1 b.1 with h | h | h
  · exact Or.inl (Or.inl h)
  · rcases Nat.le_total a.2 b.2 with h2 | h2
    · exact Or.inl (Or.inr ⟨h, h2⟩)
    · exact Or.inr (Or.inr ⟨h.symm, h2⟩)
  · exact Or.inr (Or.inl h)

instance : IsTrans (ℚ × ℕ) lexLe := by
  constructor
  intro a b c hab hbc
  rcases hab with h1 | ⟨h1, h1i⟩
  · rcases hbc with h2 | ⟨h2, h2i⟩
    · exact Or.inl (lt_trans h1 h2)
    · exact Or.inl (h2 ▸ h1)
  · rcases hbc with h2 | ⟨h2, h2i⟩
    · exact Or.inl (h1 ▸ h2)
    · exact Or.inr ⟨h1.trans h2, le_trans h1i h2i⟩

/-- Stage 1 squared planar distance `lat_diff² + lon_diff²` (lines 331-333). -/
def planarSq (a b : Coordinates) : ℚ :=
  (a.latitude - b.latitude) * (a.latitude - b.latitude) +
    (a.longitude - b.longitude) * (a.longitude - b.longitude)

/-- The `(euclidean_dist_squared, point_index)` candidate list (lines 329-334). -/
def candList (target : Coordinates) (pts : List Coordinates) : List (ℚ × ℕ) :=
  (List.range pts.length).map (fun i => (planarSq target (pts.getD i default), i))

/-- `candidates.sort(); candidates[:10]` (lines 337-338).  Python's stable sort
on tuples is the sorted-by-`lexLe` permutation; the index components are
distinct, so any sorted permutation is that unique one. -/
def topCands (target : Coordinates) (pts : List Coordinates) : List (ℚ × ℕ) :=
  (List.insertionSort lexLe (candList target pts)).take 10

/-- Two-stage nearest-point search (lines 321-352): the stage-2 loop with
`best_index = 0`, `min_geodesic = inf` and a strict `<` update is the
first-minimum fold over the top candidates, returning 0 when there are none. -/
def find_closest_route_point_index (gdist : Coordinates → Coordinates → ℚ)
    (target : Coordinates) (pts : List Coordinates) : ℕ :=
  match foldFirstMin (fun pr => gdist target (pts.getD pr.2 default))
      (topCands target pts) with
  | some pr => pr.2
  | none => 0

/-! ## Geometry utilities (routing.py lines 167-190) -/

/-- Tail of the cumulative-distance table: running totals after `prev`. -/
def cumAux (gdist : Coordinates → Coordinates → ℚ) (acc : ℚ) :
    Coordinates → List Coordinates → List ℚ
  | _, [] => []
  | prev, p :: rest => (acc + gdist prev p) :: cumAux gdist (acc + gdist prev p) p rest

/-- `calculate_cumulative_distances` (lines 167-175): starts at `[0.0]` and
appends consecutive-pair geodesic distances cumulatively. -/
def calculate_cumulative_distances (gdist : Coordinates → Coordinates → ℚ)
    (route_points : List Coordinates) : List ℚ :=
  match route_points with
  | [] => [0]
  | p :: rest => 0 :: cumAux gdist 0 p rest

/-- The bracket-scan loop body of `find_point_at_distance` (lines 183-190):
`fuel` counts the remaining iterations of `for i in range(len(cum) - 1)`,
`i` is the current loop index (so `i + 1 < cum.length` holds on every
iteration actually reached; it is carried in the guard to keep the reads
total). -/
def fpadGo (pts : List Coordinates) (cum : List ℚ) (t : ℚ) : ℕ → ℕ → Option Coordinates
  | _, 0 => none
  | i, fuel + 1 =>
    if i + 1 < cum.length ∧ cum.getD i 0 ≤ t ∧ t ≤ cum.getD (i + 1) 0 then
      pts[i]?
    else
      fpadGo pts cum t (i + 1) fuel

/-- `find_point_at_distance` (lines 178-190). -/
def find_point_at_distance (route_points : List Coordinates)
    (cumulative_distances : List ℚ) (target_distance : ℚ) : Option Coordinates :=
  fpadGo route_points cumulative_distances target_distance 0
    (cumulative_distances.length - 1)

/-- The target distances `interval, 2*interval, ...` generated by the `while
target_distance < total_distance` loop (lines 150-162): these are exactly the
positive multiples of `WAYPOINT_INTERVAL` strictly below `total`, i.e.
`450 * (k + 1)` for `k < ⌈total / 450⌉ - 1` (an integer `n ≥ 1` satisfies
`450 * n < total` iff `n ≤ ⌈total / 450⌉ - 1`). -/
def targetDistances (total : ℚ) : List ℚ :=
  (List.range (⌈total / WAYPOINT_INTERVAL⌉ - 1).toNat).map
    (fun k => WAYPOINT_INTERVAL * ((k : ℚ) + 1))

/-- `calculate_waypoints` (lines 143-164): targets whose bracket scan finds no
bracket contribute no waypoint (`if waypoint_coords:` guard — `filterMap`). -/
def calculate_waypoints (gdist : Coordinates → Coordinates → ℚ)
    (route : Route) : List Coordinates :=
  if route.distance ≤ VEHICLE_RANGE then
    []
  else
    targetDistances route.distance |>.filterMap
      (find_point_at_distance route.geometry
        (calculate_cumulative_distances gdist route.geometry))

/-! ## Station catalog, spatial filter and stop selection
(routing.py lines 193-272).

The process-wide catalog `GAS_STOPS` is threaded as explicit state of type
`List GasStop`; a "reference to a station record" is its index into that
state.  `select_cheapest_gas_stop` mutates the records it is handed, so its
state-level rendering maps a candidate index list to a discounted state plus
the chosen index. -/

/-- `get_nearby_gas_stops` (lines 220-233): bounding-box prefilter, inclusive
on all four sides, returning references (indices) into the catalog. -/
def get_nearby_gas_stops (route : Route) (catalog : List GasStop) : List ℕ :=
  (List.range catalog.length).filter (fun i =>
    let g := catalog.getD i default
    decide (route.bbox.min_lat ≤ g.coordinates.latitude) &&
    decide (g.coordinates.latitude ≤ route.bbox.max_lat) &&
    decide (route.bbox.min_lon ≤ g.coordinates.longitude) &&
    decide (g.coordinates.longitude ≤ route.bbox.max_lon))

/-- The discount loop of `select_cheapest_gas_stop` (lines 268-270) acting on
the shared catalog: each candidate reference whose address contains `"I-"`
has its price reduced in place by `HIGHWAY_BONUS`. -/
def discountStep (cat : List GasStop) (i : ℕ) : List GasStop :=
  match cat[i]? with
  | some g =>
    if hasMarker g.address.data then
      cat.set i { g with price_per_gallon := g.price_per_gallon - HIGHWAY_BONUS }
    else
      cat
  | none => cat

def applyDiscount (catalog : List GasStop) (idxs : List ℕ) : List GasStop :=
  idxs.foldl discountStep catalog

/-- State-level `select_cheapest_gas_stop` (lines 266-272): discount pass on
the shared records, then `min(..., key=price, default=None)`. -/
def select_cheapest_idx (catalog : List GasStop) (candidate_idxs : List ℕ) :
    List GasStop × Option ℕ :=
  let cat2 := applyDiscount catalog candidate_idxs
  (cat2, foldFirstMin (fun i => (cat2.getD i default).price_per_gallon) candidate_idxs)

/-- Value-level `select_cheapest_gas_stop` (lines 266-272): the same two lines
viewed as a function of the candidate records it receives — discount every
`"I-"` candidate, then return the first minimum-price one. -/
def discounted (stops : List GasStop) : List GasStop :=
  stops.map (fun g =>
    if hasMarker g.address.data then
      { g with price_per_gallon := g.price_per_gallon - HIGHWAY_BONUS }
    else
      g)

def select_cheapest_gas_stop (candidate_stops : List GasStop) : Option GasStop :=
  foldFirstMin (fun g => g.price_per_gallon) (discounted candidate_stops)

/-- Per-waypoint body of `find_optimal_gas_stops` (lines 202-215) as a fold:
radius filter over the bbox-prefiltered references, accumulate the nearby
list, select the cheapest (mutating the shared state), accumulate the chosen
reference if any. -/
def find_optimal_gas_stops (gdist : Coordinates → Coordinates → ℚ)
    (waypoints : List Coordinates) (route : Route) (catalog : List GasStop) :
    List ℕ × List (List ℕ) × List GasStop :=
  let filtered := get_nearby_gas_stops route catalog
  waypoints.foldl
    (fun acc wp =>
      let nearby := filtered.filter
        (fun i => decide (gdist wp (acc.2.2.getD i default).coordinates ≤ GAS_SEARCH_RADIUS))
      let sel := select_cheapest_idx acc.2.2 nearby
      (acc.1 ++ (match sel.2 with
        | some b => [b]
        | none => []),
       acc.2.1 ++ [nearby], sel.1))
    ([], [], catalog)

/-! ## Segment and cost aggregation (routing.py lines 275-368) -/

/-- Consecutive pairs of a list: the `range(len(all_points) - 1)` loop. -/
def consecutivePairs : List α → List (α × α)
  | a :: b :: rest => (a, b) :: consecutivePairs (b :: rest)
  | _ => []

/-- `calculate_route_segment_distance` (lines 308-318). -/
def calculate_route_segment_distance (gdist : Coordinates → Coordinates → ℚ)
    (start_point end_point : Coordinates) (route_points : List Coordinates)
    (cumulative_distances : List ℚ) : ℚ :=
  let start_index := find_closest_route_point_index gdist start_point route_points
  let end_index := find_closest_route_point_index gdist end_point route_points
  cumulative_distances.getD end_index 0 - cumulative_distances.getD start_index 0 +
    DETOUR_ALLOWANCE

/-- `calculate_route_segments` (lines 275-305). -/
def calculate_route_segments (gdist : Coordinates → Coordinates → ℚ)
    (route : Route) (gas_stops : List GasStop) : List RouteSegment :=
  let cumulative_distances := calculate_cumulative_distances gdist route.geometry
  let all_points := route.origin_coordinates ::
    (gas_stops.map (fun s => s.coordinates) ++ [route.destination_coordinates])
  (consecutivePairs all_points).map (fun pr =>
    let distance := calculate_route_segment_distance gdist pr.1 pr.2
      route.geometry cumulative_distances
    { start_coordinates := pr.1
      end_coordinates := pr.2
      distance := round2 distance
      gas_needed_gallons := round2 (distance / GAS_EFFICIENCY) })

/-- The accumulation loop of `calculate_total_gas_cost` (lines 361-366):
`i` is the running `enumerate` index. -/
def totalCostAux (gas_stops : List GasStop) : ℕ → List RouteSegment → ℚ
  | _, [] => 0
  | i, seg :: rest =>
    (if i < gas_stops.length then
      seg.gas_needed_gallons * (gas_stops.getD i default).price_per_gallon
    else 0) + totalCostAux gas_stops (i + 1) rest

/-- `calculate_total_gas_cost` (lines 355-368). -/
def calculate_total_gas_cost (segments : List RouteSegment)
    (gas_stops : List GasStop) : ℚ :=
  if gas_stops.isEmpty then 0
  else round2 (totalCostAux gas_stops 0 segments)

/-- The optimization pipeline from a fetched `Route` (lines 74-89 minus the
external `get_route` call), with the process-wide catalog threaded as state.
The returned record resolves station references against the final catalog
state, which is when Python reads the (shared, mutated) records. -/
def optimize_from_route (gdist : Coordinates → Coordinates → ℚ)
    (route : Route) (catalog : List GasStop) : OptimalRoute × List GasStop :=
  let waypoints := calculate_waypoints gdist route
  let found := find_optimal_gas_stops gdist waypoints route catalog
  let cat2 := found.2.2
  let optimal_gas_stops := found.1.map (fun i => cat2.getD i default)
  let segments := calculate_route_segments gdist route optimal_gas_stops
  let total_cost := calculate_total_gas_cost segments optimal_gas_stops
  ({ total_distance := route.distance
     total_gas_cost := total_cost
     gas_stops := optimal_gas_stops
     route_coordinates := route.geometry
     segments := segments
     nearby_stations := found.2.1.map (fun l => l.map (fun i => cat2.getD i default)) },
   cat2)

/-! ## Spec-side definitions (from the spec's words, for refinement claims) -/

/-- Modelled from the spec (§4.6 `totalCost`): sum, over each index `i` at
which both a segment and a chosen stop exist, of
`segment[i].fuelNeeded * chosenStops[i].pricePerGallon`, rounded to 2
decimals. -/
def totalCostSpec (segments : List RouteSegment) (gas_stops : List GasStop) : ℚ :=
  round2 (((segments.zip gas_stops).map
    (fun pr => pr.1.gas_needed_gallons * pr.2.price_per_gallon)).sum)

/-- The spec's bracket condition (§4.3): `cumulative[i] <= t <= cumulative[i+1]`
with both endpoints present. -/
def isBracket (cum : List ℚ) (t : ℚ) (i : ℕ) : Prop :=
  i + 1 < cum.length ∧ cum.getD i 0 ≤ t ∧ t ≤ cum.getD (i + 1) 0

instance (cum : List ℚ) (t : ℚ) (i : ℕ) : Decidable (isBracket cum t i) := by
  unfold isBracket
  infer_instance

/-! ## Concrete inputs for counterexamples and witnesses -/

/-- Stand-in metric for the external geodesic: L1 distance in degrees. -/
def gdistL1 (a b : Coordinates) : ℚ :=
  |a.latitude - b.latitude| + |a.longitude - b.longitude|

/-- Stand-in metric that depends on latitude only (used to exhibit geodesic
ties between candidates whose planar squared distances differ). -/
def gdistLat (a b : Coordinates) : ℚ := |a.latitude - b.latitude|

/-- A highway-accessible station (spec §8 scenario address shape). -/
def stopA : GasStop :=
  { truckstop_id := "1"
    name := "Highway Stop"
    address := "123 I-40 Exit 5"
    city := "Amarillo"
    state := "TX"
    coordinates := ⟨0, 1⟩
    price_per_gallon := 3 }

/-- A non-highway station priced between the highway station's base and
discounted price (spec §8 scenario). -/
def stopB : GasStop :=
  { truckstop_id := "2"
    name := "City Stop"
    address := "9 Main St"
    city := "Amarillo"
    state := "TX"
    coordinates := ⟨0, 1⟩
    price_per_gallon := 87 / 25 }

/-- A 1000-mile route whose zig-zag geometry snaps the 450- and 900-mile
waypoint targets to the nearby vertices `(0,2)` and `(0,4)`, so that `stopA`
at `(0,1)` is a candidate at both waypoints.  Cumulative L1 distances:
`[0, 225, 448, 673, 896, 1121]`. -/
def routeDemo : Route :=
  { origin_coordinates := ⟨0, 0⟩
    destination_coordinates := ⟨0, 229⟩
    distance := 1000
    geometry := [⟨0, 0⟩, ⟨0, 225⟩, ⟨0, 2⟩, ⟨0, 227⟩, ⟨0, 4⟩, ⟨0, 229⟩]
    bbox := ⟨0, 0, 229, 0⟩ }

/-- A short route (300 miles, below the vehicle range). -/
def routeShort : Route :=
  { origin_coordinates := ⟨0, 0⟩
    destination_coordinates := ⟨0, 300⟩
    distance := 300
    geometry := [⟨0, 0⟩, ⟨0, 300⟩]
    bbox := ⟨0, 0, 300, 0⟩ }

/-- A route whose origin sits at the far end of its geometry: the single
origin→destination segment then spans the cumulative table backwards. -/
def routeBack : Route :=
  { origin_coordinates := ⟨0, 600⟩
    destination_coordinates := ⟨0, 0⟩
    distance := 300
    geometry := [⟨0, 0⟩, ⟨0, 600⟩]
    bbox := ⟨0, 0, 600, 0⟩ }

/-! ## Helper lemmas -/

theorem zip_append_left_of_le (xs : List α) (zs : List β)
    (h : zs.length ≤ xs.length) (ys : List α) : (xs ++ ys).zip zs = xs.zip zs := by
  induction xs generalizing zs with
  | nil =>
    have hz : zs = [] := List.length_eq_zero.mp (Nat.le_zero.mp h)
    subst hz
    simp
  | cons x xs ih =>
    cases zs with
    | nil => simp
    | cons z zs =>
      simp only [List.cons_append, List.zip_cons_cons, List.cons.injEq, true_and]
      exact ih zs (by simpa using h) 

theorem totalCostAux_eq_zip (gas_stops : List GasStop) (segments : List RouteSegment)
    (i : ℕ) :
    totalCostAux gas_stops i segments =
      ((segments.zip (gas_stops.drop i)).map
        (fun pr => pr.1.gas_needed_gallons * pr.2.price_per_gallon)).sum := by
  induction segments generalizing i with
  | nil => simp [totalCostAux]
  | cons seg rest ih =>
    rcases Nat.lt_or_ge i gas_stops.length with h | h
    · rw [List.drop_eq_getElem_cons h]
      simp only [totalCostAux, if_pos h, List.zip_cons_cons, List.map_cons, List.sum_cons,
        ih (i + 1)]
      congr 2
      simp [List.getD_eq_getElem?_getD, List.getElem?_eq_getElem h]
    · have hd : gas_stops.drop i = [] := List.drop_eq_nil_of_le h
      have hd2 : gas_stops.drop (i + 1) = [] :=
        List.drop_eq_nil_of_le (Nat.le_succ_of_le h)
      simp [totalCostAux, Nat.not_lt.mpr h, hd, hd2, ih (i + 1)]

theorem round2_zero : round2 0 = 0 := by
  norm_num [round2]

/-- C1: for every segment list with exactly one more entry than the chosen-stop
list, `calculate_total_gas_cost` equals the spec's `totalCost` — the rounded
sum over each index `i` having a chosen stop of
`segment[i].fuelNeeded * chosenStops[i].pricePerGallon` — and the final
segment's fuel is not priced: replacing the final segment by any other leaves
the total unchanged. -/
theorem C1_total_cost (segments : List RouteSegment) (gas_stops : List GasStop)
    (seg : RouteSegment) (h : segments.length = gas_stops.length + 1) :
    calculate_total_gas_cost segments gas_stops = totalCostSpec segments gas_stops ∧
    calculate_total_gas_cost (segments.dropLast ++ [seg]) gas_stops =
      calculate_total_gas_cost segments gas_stops := by
  have hne : segments ≠ [] := by
    intro he
    rw [he] at h
    simp at h
  have hlen : gas_stops.length ≤ segments.dropLast.length := by
    simp [h]
  have hsplit : segments.dropLast ++ [segments.getLast hne] = segments :=
    List.dropLast_concat_getLast hne
  have hzip : ∀ s : RouteSegment,
      (segments.dropLast ++ [s]).zip gas_stops = segments.dropLast.zip gas_stops :=
    fun s => zip_append_left_of_le _ _ hlen _
  have hzips : segments.zip gas_stops = segments.dropLast.zip gas_stops := by
    conv_lhs => rw [← hsplit]
    exact hzip _
  constructor
  · cases hgs : gas_stops with
    | nil =>
      simp [calculate_total_gas_cost, totalCostSpec, round2_zero]
    | cons g gs =>
      rw [← hgs]
      have hne2 : gas_stops.isEmpty = false := by
        rw [hgs]
        rfl
      simp only [calculate_total_gas_cost, hne2, Bool.false_eq_true, if_false,
        totalCostSpec, totalCostAux_eq_zip, List.drop_zero]
  · cases hgs : gas_stops with
    | nil =>
      simp [calculate_total_gas_cost]
    | cons g gs =>
      rw [← hgs]
      have hne2 : gas_stops.isEmpty = false := by
        rw [hgs]
        rfl
      simp only [calculate_total_gas_cost, hne2, Bool.false_eq_true, if_false,
        totalCostAux_eq_zip, List.drop_zero, hzip, hzips]

theorem C1_total_cost_witness :
    (([⟨⟨0, 0⟩, ⟨0, 1⟩, 10, 1⟩, ⟨⟨0, 1⟩, ⟨0, 300⟩, 309, 309 / 10⟩] :
        List RouteSegment).length = ([stopB] : List GasStop).length + 1) ∧
    (calculate_total_gas_cost
        [⟨⟨0, 0⟩, ⟨0, 1⟩, 10, 1⟩, ⟨⟨0, 1⟩, ⟨0, 300⟩, 309, 309 / 10⟩] [stopB] =
      totalCostSpec
        [⟨⟨0, 0⟩, ⟨0, 1⟩, 10, 1⟩, ⟨⟨0, 1⟩, ⟨0, 300⟩, 309, 309 / 10⟩] [stopB] ∧
    calculate_total_gas_cost
        (([⟨⟨0, 0⟩, ⟨0, 1⟩, 10, 1⟩, ⟨⟨0, 1⟩, ⟨0, 300⟩, 309, 309 / 10⟩] :
          List RouteSegment).dropLast ++ [⟨⟨0, 1⟩, ⟨0, 300⟩, 55, 55 / 10⟩]) [stopB] =
      calculate_total_gas_cost
        [⟨⟨0, 0⟩, ⟨0, 1⟩, 10, 1⟩, ⟨⟨0, 1⟩, ⟨0, 300⟩, 309, 309 / 10⟩] [stopB]) :=
  ⟨by decide, C1_total_cost _ _ _ (by decide)⟩

/-- C5: `select_cheapest_gas_stop` returns the first candidate (in candidate
list order) attaining the minimum (discounted) price-per-gallon, and `none`
on an empty candidate list. -/
theorem C5_select_cheapest (cs : List GasStop) :
    (cs = [] → select_cheapest_gas_stop cs = none) ∧
    (cs ≠ [] → ∃ k, k < cs.length ∧
      select_cheapest_gas_stop cs = some ((discounted cs).getD k default) ∧
      (∀ m, m < cs.length →
        ((discounted cs).getD k default).price_per_gallon ≤
          ((discounted cs).getD m default).price_per_gallon) ∧
      (∀ m, m < k →
        ((discounted cs).getD k default).price_per_gallon <
          ((discounted cs).getD m default).price_per_gallon)) := by
  constructor
  · intro h
    subst h
    rfl
  · intro h
    have hne : discounted cs ≠ [] := by
      intro he
      exact h (List.map_eq_nil_iff.mp he)
    obtain ⟨k, hk, heq, hmin, hstrict⟩ :=
      foldFirstMin_first_min (fun g => g.price_per_gallon) default (discounted cs) hne
    have hlen : (discounted cs).length = cs.length := List.length_map _ _
    rw [hlen] at hk
    refine ⟨k, hk, heq, ?_, hstrict⟩
    intro m hm
    exact hmin m (by rw [hlen]; exact hm)

theorem C5_select_cheapest_witness :
    (([stopB, stopA] : List GasStop) ≠ []) ∧
    (∃ k, k < ([stopB, stopA] : List GasStop).length ∧
      select_cheapest_gas_stop [stopB, stopA] =
        some ((discounted [stopB, stopA]).getD k default) ∧
      (∀ m, m < ([stopB, stopA] : List GasStop).length →
        ((discounted [stopB, stopA]).getD k default).price_per_gallon ≤
          ((discounted [stopB, stopA]).getD m default).price_per_gallon) ∧
      (∀ m, m < k →
        ((discounted [stopB, stopA]).getD k default).price_per_gallon <
          ((discounted [stopB, stopA]).getD m default).price_per_gallon)) :=
  ⟨by decide, (C5_select_cheapest [stopB, stopA]).2 (by decide)⟩

/-- C8: `calculate_route_segments` always produces exactly
`len(chosenStops) + 1` segments, one per consecutive pair of the chain
`[origin, stop_1, ..., stop_n, destination]`. -/
theorem C8_segment_count (gdist : Coordinates → Coordinates → ℚ)
    (route : Route) (gas_stops : List GasStop) :
    (calculate_route_segments gdist route gas_stops).length = gas_stops.length + 1 := by
  have hpairs : ∀ (a : Coordinates) (l : List Coordinates),
      (consecutivePairs (a :: l)).length = l.length := by
    intro a l
    induction l generalizing a with
    | nil => rfl
    | cons b rest ih => simpa [consecutivePairs] using ih b
  simp [calculate_route_segments, hpairs]

theorem discountStep_length (cat : List GasStop) (i : ℕ) :
    (discountStep cat i).length = cat.length := by
  unfold discountStep
  cases h : cat[i]? with
  | none => rfl
  | some g =>
    by_cases hm : hasMarker g.address.data
    · simp [hm]
    · simp [hm]

theorem discountStep_ne (cat : List GasStop) (i j : ℕ) (h : i ≠ j) :
    (discountStep cat i)[j]? = cat[j]? := by
  unfold discountStep
  cases hg : cat[i]? with
  | none => rfl
  | some g =>
    by_cases hm : hasMarker g.address.data
    · simp [hm, List.getElem?_set_ne h]
    · simp [hm]

theorem discountStep_self (cat : List GasStop) (i : ℕ) (g : GasStop)
    (hg : cat[i]? = some g) :
    (discountStep cat i)[i]? = some
      (if hasMarker g.address.data then
        { g with price_per_gallon := g.price_per_gallon - HIGHWAY_BONUS }
      else g) := by
  have hi : i < cat.length := by
    rcases List.getElem?_eq_some_iff.mp hg with ⟨hi, -⟩
    exact hi
  unfold discountStep
  rw [hg]
  by_cases hm : hasMarker g.address.data
  · simp [hm, List.getElem?_set_self hi]
  · simp [hm, hg]

theorem applyDiscount_length (idxs : List ℕ) (cat : List GasStop) :
    (applyDiscount cat idxs).length = cat.length := by
  induction idxs generalizing cat with
  | nil => rfl
  | cons i rest ih =>
    show (applyDiscount (discountStep cat i) rest).length = cat.length
    rw [ih (discountStep cat i), discountStep_length]

theorem applyDiscount_not_mem (idxs : List ℕ) (cat : List GasStop) (j : ℕ)
    (hj : j ∉ idxs) : (applyDiscount cat idxs)[j]? = cat[j]? := by
  induction idxs generalizing cat with
  | nil => rfl
  | cons i rest ih =>
    have hji : i ≠ j := fun he => hj (he ▸ List.mem_cons_self i rest)
    have hjr : j ∉ rest := fun hr => hj (List.mem_cons_of_mem i hr)
    show (applyDiscount (discountStep cat i) rest)[j]? = cat[j]?
    rw [ih (discountStep cat i) hjr, discountStep_ne cat i j hji]

theorem applyDiscount_mem (idxs : List ℕ) (cat : List GasStop)
    (hnd : idxs.Nodup) (i : ℕ) (hi : i ∈ idxs) (g : GasStop)
    (hg : cat[i]? = some g) :
    (applyDiscount cat idxs)[i]? = some
      (if hasMarker g.address.data then
        { g with price_per_gallon := g.price_per_gallon - HIGHWAY_BONUS }
      else g) := by
  induction idxs generalizing cat with
  | nil => exact absurd hi (List.not_mem_nil i)
  | cons a rest ih =>
    have hnd2 : a ∉ rest ∧ rest.Nodup := List.nodup_cons.mp hnd
    rcases List.mem_cons.mp hi with he | hr
    · subst he
      show (applyDiscount (discountStep cat i) rest)[i]? = _
      rw [applyDiscount_not_mem rest _ i hnd2.1, discountStep_self cat i g hg]
    · have hia : i ≠ a := fun he => hnd2.1 (he ▸ hr)
      show (applyDiscount (discountStep cat a) rest)[i]? = _
      exact ih (discountStep cat a) hnd2.2 hr
        (by rw [discountStep_ne cat a i (fun he => hia he.symm)]; exact hg)

/-- C2: the claim says a chosen stop's price reflects the highway discount
exactly once per optimization run.  The code applies the discount once per
waypoint at which a station is a candidate: on `routeDemo`, `stopA` (base
price 3.00, highway-marked) is within radius of both waypoints and its price
ends at 2.90 = 3.00 - 2 * 0.05, discounted twice in a single run. -/
theorem C2_double_discount :
    hasMarker stopA.address.data = true ∧
    stopA.price_per_gallon = 3 ∧
    (calculate_waypoints gdistL1 routeDemo).length = 2 ∧
    (optimize_from_route gdistL1 routeDemo [stopA]).1.gas_stops.map
      (fun g => g.price_per_gallon) = [29 / 10, 29 / 10] := by
  with_unfolding_all decide

set_option maxRecDepth 8000 in
/-- C3: the claim says two runs of the pipeline on the same route and the same
initial station catalog return equal results.  The pipeline mutates the
process-wide catalog (the discount survives in the threaded state), so the
second run of the same process — same route, catalog loaded once at start —
re-discounts and returns a different total cost (5.80 vs 5.60). -/
theorem C3_rerun_not_pure :
    (optimize_from_route gdistL1 routeDemo [stopA]).1.total_gas_cost = 29 / 5 ∧
    (optimize_from_route gdistL1 routeDemo
        (optimize_from_route gdistL1 routeDemo [stopA]).2).1.total_gas_cost = 28 / 5 ∧
    (optimize_from_route gdistL1 routeDemo [stopA]).1 ≠
      (optimize_from_route gdistL1 routeDemo
        (optimize_from_route gdistL1 routeDemo [stopA]).2).1 := by
  with_unfolding_all decide

/-- C10: a call to `select_cheapest_gas_stop` decreases the price of every
highway-marked candidate (returned or not) by exactly `HIGHWAY_BONUS` in the
shared catalog, leaves every other record untouched, and the reduced prices
persist: the per-waypoint `nearby_stations` lists of the returned
`OptimalRoute` show the final (here twice-discounted) prices. -/
theorem C10_shared_mutation (catalog : List GasStop) (idxs : List ℕ)
    (hnd : idxs.Nodup) :
    ((applyDiscount catalog idxs).length = catalog.length ∧
     (∀ i ∈ idxs, ∀ g : GasStop, catalog[i]? = some g →
        (applyDiscount catalog idxs)[i]? = some
          (if hasMarker g.address.data then
            { g with price_per_gallon := g.price_per_gallon - HIGHWAY_BONUS }
          else g)) ∧
     (∀ j, j ∉ idxs → (applyDiscount catalog idxs)[j]? = catalog[j]?) ∧
     (∀ idxs2, select_cheapest_idx catalog idxs2 =
        (applyDiscount catalog idxs2,
         foldFirstMin
           (fun i => ((applyDiscount catalog idxs2).getD i default).price_per_gallon)
           idxs2))) ∧
    (optimize_from_route gdistL1 routeDemo [stopA]).1.nearby_stations.map
      (fun l => l.map (fun g => g.price_per_gallon)) = [[29 / 10], [29 / 10]] := by
  refine ⟨⟨applyDiscount_length idxs catalog, ?_, ?_, fun idxs2 => rfl⟩, ?_⟩
  · intro i hi g hg
    exact applyDiscount_mem idxs catalog hnd i hi g hg
  · intro j hj
    exact applyDiscount_not_mem idxs catalog j hj
  · with_unfolding_all decide

theorem C10_shared_mutation_witness :
    (([0, 1] : List ℕ).Nodup) ∧
    (((applyDiscount [stopA, stopB] [0, 1]).length = ([stopA, stopB] : List GasStop).length ∧
     (∀ i ∈ ([0, 1] : List ℕ), ∀ g : GasStop, ([stopA, stopB] : List GasStop)[i]? = some g →
        (applyDiscount [stopA, stopB] [0, 1])[i]? = some
          (if hasMarker g.address.data then
            { g with price_per_gallon := g.price_per_gallon - HIGHWAY_BONUS }
          else g)) ∧
     (∀ j, j ∉ ([0, 1] : List ℕ) → (applyDiscount [stopA, stopB] [0, 1])[j]? =
        ([stopA, stopB] : List GasStop)[j]?) ∧
     (∀ idxs2, select_cheapest_idx [stopA, stopB] idxs2 =
        (applyDiscount [stopA, stopB] idxs2,
         foldFirstMin
           (fun i => ((applyDiscount [stopA, stopB] idxs2).getD i default).price_per_gallon)
           idxs2))) ∧
    (optimize_from_route gdistL1 routeDemo [stopA]).1.nearby_stations.map
      (fun l => l.map (fun g => g.price_per_gallon)) = [[29 / 10], [29 / 10]]) :=
  ⟨by decide, C10_shared_mutation [stopA, stopB] [0, 1] (by decide)⟩

/-- C6: when the route's total distance is within the vehicle range, no
waypoints are generated and the resulting plan has exactly one segment, no
chosen gas stops, and total gas cost 0. -/
theorem C6_short_route (gdist : Coordinates → Coordinates → ℚ) (route : Route)
    (catalog : List GasStop) (h : route.distance ≤ VEHICLE_RANGE) :
    calculate_waypoints gdist route = [] ∧
    (optimize_from_route gdist route catalog).1.gas_stops = [] ∧
    (optimize_from_route gdist route catalog).1.segments.length = 1 ∧
    (optimize_from_route gdist route catalog).1.total_gas_cost = 0 := by
  have hw : calculate_waypoints gdist route = [] := by
    unfold calculate_waypoints
    rw [if_pos h]
  have hfind : find_optimal_gas_stops gdist (calculate_waypoints gdist route)
      route catalog = ([], [], catalog) := by
    rw [hw]
    rfl
  refine ⟨hw, ?_, ?_, ?_⟩
  · simp [optimize_from_route, hfind]
  · simp [optimize_from_route, hfind, calculate_route_segments, consecutivePairs]
  · simp [optimize_from_route, hfind, calculate_total_gas_cost]

theorem C6_short_route_witness :
    (routeShort.distance ≤ VEHICLE_RANGE) ∧
    (calculate_waypoints gdistL1 routeShort = [] ∧
    (optimize_from_route gdistL1 routeShort [stopA]).1.gas_stops = [] ∧
    (optimize_from_route gdistL1 routeShort [stopA]).1.segments.length = 1 ∧
    (optimize_from_route gdistL1 routeShort [stopA]).1.total_gas_cost = 0) :=
  ⟨by norm_num [routeShort, VEHICLE_RANGE],
   C6_short_route gdistL1 routeShort [stopA] (by norm_num [routeShort, VEHICLE_RANGE])⟩

theorem fpadGo_eq_none (pts : List Coordinates) (cum : List ℚ) (t : ℚ)
    (fuel : ℕ) :
    ∀ i, (∀ j, j < fuel → ¬ isBracket cum t (i + j)) →
      fpadGo pts cum t i fuel = none := by
  induction fuel with
  | zero => intro i _; rfl
  | succ fuel ih =>
    intro i h
    have hb : ¬ isBracket cum t i := by
      have := h 0 (Nat.succ_pos fuel)
      simpa using this
    unfold fpadGo
    rw [if_neg (by exact fun hc => hb hc)]
    refine ih (i + 1) ?_
    intro j hj
    have := h (j + 1) (Nat.succ_lt_succ hj)
    simpa [Nat.add_assoc, Nat.add_comm 1 j] using this

theorem fpadGo_eq_some (pts : List Coordinates) (cum : List ℚ) (t : ℚ)
    (fuel : ℕ) :
    ∀ i j, j < fuel → isBracket cum t (i + j) →
      (∀ k, k < j → ¬ isBracket cum t (i + k)) →
      fpadGo pts cum t i fuel = pts[i + j]? := by
  induction fuel with
  | zero => intro i j hj _ _; exact absurd hj (Nat.not_lt_zero j)
  | succ fuel ih =>
    intro i j hj hb hk
    cases j with
    | zero =>
      have hb2 : i + 1 < cum.length ∧ cum.getD i 0 ≤ t ∧ t ≤ cum.getD (i + 1) 0 := hb
      unfold fpadGo
      rw [if_pos hb2]
      rfl
    | succ j =>
      have hnb : ¬ isBracket cum t i := by
        have := hk 0 (Nat.succ_pos j)
        simpa using this
      unfold fpadGo
      rw [if_neg (by exact fun hc => hnb hc)]
      have hgoal := ih (i + 1) j (Nat.lt_of_succ_lt_succ hj)
        (by simpa [Nat.add_assoc, Nat.add_comm 1 j] using hb)
        (fun k hkk => by
          have := hk (k + 1) (Nat.succ_lt_succ hkk)
          simpa [Nat.add_assoc, Nat.add_comm 1 k] using this)
      simpa [Nat.add_assoc, Nat.add_comm 1 j] using hgoal

/-- C7: the waypoint planner's bracket scan returns `points[i]` for the first
`i` whose bracket `[cumulative[i], cumulative[i+1]]` contains the target (the
bracket's lower endpoint), returns nothing when no bracket contains the
target, and `calculate_waypoints` silently drops exactly the targets whose
scan returns nothing (`filterMap`). -/
theorem C7_bracket_scan (pts : List Coordinates) (cum : List ℚ) (t : ℚ)
    (gdist : Coordinates → Coordinates → ℚ) (route : Route)
    (hd : VEHICLE_RANGE < route.distance) :
    ((∃ i, isBracket cum t i) →
      ∃ i, isBracket cum t i ∧ (∀ j, j < i → ¬ isBracket cum t j) ∧
        find_point_at_distance pts cum t = pts[i]?) ∧
    ((∀ i, ¬ isBracket cum t i) → find_point_at_distance pts cum t = none) ∧
    calculate_waypoints gdist route =
      (targetDistances route.distance).filterMap
        (find_point_at_distance route.geometry
          (calculate_cumulative_distances gdist route.geometry)) := by
  refine ⟨?_, ?_, ?_⟩
  · intro h
    have i0 := Nat.find h
    refine ⟨Nat.find h, Nat.find_spec h, fun j hj => Nat.find_min h hj, ?_⟩
    have hlt : Nat.find h < cum.length - 1 := by
      have := (Nat.find_spec h).1
      omega
    have := fpadGo_eq_some pts cum t (cum.length - 1) 0 (Nat.find h)
      hlt (by simpa using Nat.find_spec h)
      (fun k hkk => by simpa using Nat.find_min h hkk)
    simpa [find_point_at_distance] using this
  · intro h
    exact fpadGo_eq_none pts cum t (cum.length - 1) 0 (fun j _ => h (0 + j))
  · unfold calculate_waypoints
    rw [if_neg (not_le.mpr hd)]

theorem C7_bracket_scan_witness :
    (VEHICLE_RANGE < routeDemo.distance) ∧
    (∃ i, isBracket [0, 300] 150 i ∧ (∀ j, j < i → ¬ isBracket [0, 300] 150 j) ∧
      find_point_at_distance [⟨0, 0⟩, ⟨0, 300⟩] [0, 300] 150 =
        ([⟨0, 0⟩, ⟨0, 300⟩] : List Coordinates)[i]?) ∧
    ((∀ i, ¬ isBracket [0, 300] 1000 i) →
      find_point_at_distance [⟨0, 0⟩, ⟨0, 300⟩] [0, 300] 1000 = none) ∧
    calculate_waypoints gdistL1 routeDemo =
      (targetDistances routeDemo.distance).filterMap
        (find_point_at_distance routeDemo.geometry
          (calculate_cumulative_distances gdistL1 routeDemo.geometry)) :=
  ⟨by norm_num [VEHICLE_RANGE, routeDemo],
   (C7_bracket_scan [⟨0, 0⟩, ⟨0, 300⟩] [0, 300] 150 gdistL1 routeDemo
      (by norm_num [VEHICLE_RANGE, routeDemo])).1 ⟨0, by decide⟩,
   (C7_bracket_scan [⟨0, 0⟩, ⟨0, 300⟩] [0, 300] 1000 gdistL1 routeDemo
      (by norm_num [VEHICLE_RANGE, routeDemo])).2.1,
   (C7_bracket_scan [⟨0, 0⟩, ⟨0, 300⟩] [0, 300] 150 gdistL1 routeDemo
      (by norm_num [VEHICLE_RANGE, routeDemo])).2.2⟩

/-! ## Non-negativity of segments (C9) -/

theorem round2_nonneg (q : ℚ) (h : 0 ≤ q) : 0 ≤ round2 q := by
  unfold round2
  have h1 : (0 : ℤ) ≤ ⌊q * 100 + 1 / 2⌋ := by
    rw [Int.floor_nonneg]
    positivity
  positivity

theorem cumAux_sorted (gdist : Coordinates → Coordinates → ℚ)
    (hg : ∀ a b, 0 ≤ gdist a b) :
    ∀ (rest : List Coordinates) (prev : Coordinates) (acc : ℚ),
      List.Sorted (· ≤ ·) (acc :: cumAux gdist acc prev rest) := by
  intro rest
  induction rest with
  | nil => intro prev acc; simp [cumAux]
  | cons p rest ih =>
    intro prev acc
    have htail := ih p (acc + gdist prev p)
    rw [List.sorted_cons]
    refine ⟨?_, htail⟩
    intro b hb
    rcases List.mem_cons.mp hb with he | hm
    · rw [he]
      exact le_add_of_nonneg_right (hg prev p)
    · calc acc ≤ acc + gdist prev p := le_add_of_nonneg_right (hg prev p)
        _ ≤ b := List.rel_of_sorted_cons htail b hm

theorem cum_sorted (gdist : Coordinates → Coordinates → ℚ)
    (hg : ∀ a b, 0 ≤ gdist a b) (pts : List Coordinates) :
    List.Sorted (· ≤ ·) (calculate_cumulative_distances gdist pts) := by
  cases pts with
  | nil => simp [calculate_cumulative_distances]
  | cons p rest => exact cumAux_sorted gdist hg rest p 0

theorem cum_getD_mono (gdist : Coordinates → Coordinates → ℚ)
    (hg : ∀ a b, 0 ≤ gdist a b) (pts : List Coordinates) (i j : ℕ)
    (hij : i ≤ j) (hj : j < (calculate_cumulative_distances gdist pts).length) :
    (calculate_cumulative_distances gdist pts).getD i 0 ≤
      (calculate_cumulative_distances gdist pts).getD j 0 := by
  set cum := calculate_cumulative_distances gdist pts with hc
  have hi : i < cum.length := lt_of_le_of_lt hij hj
  rw [List.getD_eq_getElem?_getD, List.getD_eq_getElem?_getD,
    List.getElem?_eq_getElem hi, List.getElem?_eq_getElem hj]
  simp only [Option.getD_some]
  rcases Nat.eq_or_lt_of_le hij with he | hlt
  · subst he
    exact le_refl _
  · have hs := cum_sorted gdist hg pts
    rw [← hc] at hs
    exact List.Sorted.rel_get_of_lt hs (a := ⟨i, hi⟩) (b := ⟨j, hj⟩) hlt

theorem cumAux_length (gdist : Coordinates → Coordinates → ℚ) :
    ∀ (rest : List Coordinates) (prev : Coordinates) (acc : ℚ),
      (cumAux gdist acc prev rest).length = rest.length := by
  intro rest
  induction rest with
  | nil => intro prev acc; rfl
  | cons p rest ih =>
    intro prev acc
    simpa [cumAux] using ih p (acc + gdist prev p)

theorem cum_length (gdist : Coordinates → Coordinates → ℚ)
    (pts : List Coordinates) :
    (calculate_cumulative_distances gdist pts).length = max 1 pts.length := by
  cases pts with
  | nil => rfl
  | cons p rest =>
    simp [calculate_cumulative_distances, cumAux_length]

theorem topCands_mem_range (target : Coordinates) (pts : List Coordinates)
    (pr : ℚ × ℕ) (hpr : pr ∈ topCands target pts) : pr.2 < pts.length := by
  have h1 : pr ∈ List.insertionSort lexLe (candList target pts) :=
    List.take_subset 10 _ hpr
  have h2 : pr ∈ candList target pts :=
    (List.perm_insertionSort lexLe (candList target pts)).subset h1
  unfold candList at h2
  rcases List.mem_map.mp h2 with ⟨i, hi, he⟩
  have : pr.2 = i := by rw [← he]
  rw [this]
  exact List.mem_range.mp hi

theorem find_closest_lt_cum_length (gdist : Coordinates → Coordinates → ℚ)
    (target : Coordinates) (pts : List Coordinates) :
    find_closest_route_point_index gdist target pts <
      (calculate_cumulative_distances gdist pts).length := by
  rw [cum_length]
  unfold find_closest_route_point_index
  cases hf : foldFirstMin (fun pr => gdist target (pts.getD pr.2 default))
      (topCands target pts) with
  | none => simp
  | some pr =>
    have hmem := foldFirstMin_mem _ _ _ hf
    have := topCands_mem_range target pts pr hmem
    simp
    omega

set_option maxRecDepth 8000 in
/-- C9 counterexample: on `routeBack` (origin at the far end of the geometry)
with no chosen stops, the single produced segment has distance -590 and fuel
-59 — the claim's "non-negative distance and fuel for every route and stop
list" fails on the code. -/
theorem C9_counterexample :
    (calculate_route_segments gdistL1 routeBack []).map (fun s => s.distance) =
      [-590] ∧
    (calculate_route_segments gdistL1 routeBack []).map
      (fun s => s.gas_needed_gallons) = [-59] ∧
    ¬ (0 : ℚ) ≤ -590 := by
  with_unfolding_all decide

/-- C9 (amended): every segment produced by `calculate_route_segments` has
non-negative distance and fuel, provided the distance function is
non-negative and the chain `[origin, stop_1, ..., stop_n, destination]` is
monotone along the route — each consecutive pair's closest-route-point
indices are non-decreasing.  (Without the monotonicity hypothesis the claim
is false: see the counterexample.) -/
theorem C9_nonneg_amended (gdist : Coordinates → Coordinates → ℚ)
    (route : Route) (gas_stops : List GasStop)
    (hg : ∀ a b, 0 ≤ gdist a b)
    (hmono : ∀ pr ∈ consecutivePairs (route.origin_coordinates ::
        (gas_stops.map (fun s => s.coordinates) ++ [route.destination_coordinates])),
      find_closest_route_point_index gdist pr.1 route.geometry ≤
        find_closest_route_point_index gdist pr.2 route.geometry) :
    (calculate_route_segments gdist route gas_stops).all
      (fun s => decide (0 ≤ s.distance) && decide (0 ≤ s.gas_needed_gallons)) = true := by
  rw [List.all_eq_true]
  intro seg hseg
  unfold calculate_route_segments at hseg
  rcases List.mem_map.mp hseg with ⟨pr, hpr, he⟩
  have hd : 0 ≤ calculate_route_segment_distance gdist pr.1 pr.2 route.geometry
      (calculate_cumulative_distances gdist route.geometry) := by
    show (0 : ℚ) ≤ (calculate_cumulative_distances gdist route.geometry).getD
        (find_closest_route_point_index gdist pr.2 route.geometry) 0 -
      (calculate_cumulative_distances gdist route.geometry).getD
        (find_closest_route_point_index gdist pr.1 route.geometry) 0 +
      DETOUR_ALLOWANCE
    have hle := hmono pr hpr
    have hcum := cum_getD_mono gdist hg route.geometry _ _ hle
      (find_closest_lt_cum_length gdist pr.2 route.geometry)
    have : (0 : ℚ) ≤ DETOUR_ALLOWANCE := by norm_num [DETOUR_ALLOWANCE]
    linarith
  rw [← he]
  simp only [Bool.and_eq_true, decide_eq_true_eq]
  constructor
  · exact round2_nonneg _ hd
  · refine round2_nonneg _ ?_
    have : (0 : ℚ) < GAS_EFFICIENCY := by norm_num [GAS_EFFICIENCY]
    positivity

theorem C9_nonneg_amended_witness :
    (calculate_route_segments gdistL1 routeShort []).all
      (fun s => decide (0 ≤ s.distance) && decide (0 ≤ s.gas_needed_gallons)) = true :=
  C9_nonneg_amended gdistL1 routeShort []
    (fun a b => add_nonneg (abs_nonneg _) (abs_nonneg _))
    (by with_unfolding_all decide)

/-! ## Two-stage nearest-point search (C4) -/

/-- C4 counterexample: with target `(0,0)` and points `[(0,2), (0,1)]` (all
considered, fewer than 10), the two points tie on the modelled great-circle
distance (`gdistLat` depends on latitude only), yet the search returns index
1 — the candidate reached first in the planar-sorted stage-2 order — not the
lowest tied original index 0 that the claim's tie-break names. -/
theorem C4_counterexample :
    gdistLat ⟨0, 0⟩ (([⟨0, 2⟩, ⟨0, 1⟩] : List Coordinates).getD 0 default) =
      gdistLat ⟨0, 0⟩ (([⟨0, 2⟩, ⟨0, 1⟩] : List Coordinates).getD 1 default) ∧
    ([⟨0, 2⟩, ⟨0, 1⟩] : List Coordinates).length ≤ 10 ∧
    find_closest_route_point_index gdistLat ⟨0, 0⟩ [⟨0, 2⟩, ⟨0, 1⟩] = 1 := by
  with_unfolding_all decide

/-- C4 (amended): stage 1 sorts the `(squared planar difference, index)` pairs
(ties by original index) and keeps the first 10 (all of them when there are
fewer than 10); stage 2 returns, among those, the index of minimum
great-circle distance, ties broken by the first candidate encountered in the
stage-2 iteration order — lexicographically smallest `(planar², index)`, which
is the lowest original index only among candidates also tied on squared
planar difference. -/
theorem C4_two_stage_amended (gdist : Coordinates → Coordinates → ℚ)
    (target : Coordinates) (pts : List Coordinates) (h : pts ≠ []) :
    List.Sorted lexLe (List.insertionSort lexLe (candList target pts)) ∧
    (List.insertionSort lexLe (candList target pts)).Perm (candList target pts) ∧
    (topCands target pts).length = min 10 pts.length ∧
    (∀ x ∈ (List.insertionSort lexLe (candList target pts)).drop 10,
      ∀ y ∈ topCands target pts, lexLe y x) ∧
    (pts.length ≤ 10 →
      topCands target pts = List.insertionSort lexLe (candList target pts)) ∧
    ∃ k, k < (topCands target pts).length ∧
      find_closest_route_point_index gdist target pts =
        ((topCands target pts).getD k (0, 0)).2 ∧
      (∀ m, m < (topCands target pts).length →
        gdist target (pts.getD ((topCands target pts).getD k (0, 0)).2 default) ≤
          gdist target (pts.getD ((topCands target pts).getD m (0, 0)).2 default)) ∧
      (∀ m, m < k →
        gdist target (pts.getD ((topCands target pts).getD k (0, 0)).2 default) <
          gdist target (pts.getD ((topCands target pts).getD m (0, 0)).2 default)) := by
  have hsorted : List.Sorted lexLe (List.insertionSort lexLe (candList target pts)) :=
    List.sorted_insertionSort lexLe (candList target pts)
  have hperm : (List.insertionSort lexLe (candList target pts)).Perm
      (candList target pts) := List.perm_insertionSort lexLe (candList target pts)
  have hclen : (candList target pts).length = pts.length := by
    unfold candList
    rw [List.length_map, List.length_range]
  have hslen : (List.insertionSort lexLe (candList target pts)).length = pts.length := by
    rw [hperm.length_eq, hclen]
  have htlen : (topCands target pts).length = min 10 pts.length := by
    unfold topCands
    rw [List.length_take, hslen]
  refine ⟨hsorted, hperm, htlen, ?_, ?_, ?_⟩
  · intro x hx y hy
    have hsplit := List.take_append_drop 10 (List.insertionSort lexLe (candList target pts))
    have hpw : List.Pairwise lexLe
        ((List.insertionSort lexLe (candList target pts)).take 10 ++
         (List.insertionSort lexLe (candList target pts)).drop 10) := by
      rw [hsplit]
      exact hsorted
    exact (List.pairwise_append.mp hpw).2.2 y hy x hx
  · intro hle
    unfold topCands
    exact List.take_of_length_le (by rw [hslen]; exact hle)
  · have htne : topCands target pts ≠ [] := by
      intro he
      have h0 : (topCands target pts).length = 0 := by
        rw [he]
        rfl
      rw [htlen] at h0
      have hp : pts.length ≠ 0 := fun hz => h (List.length_eq_zero.mp hz)
      omega
    obtain ⟨k, hk, hkeq, hmin, hstrict⟩ :=
      foldFirstMin_first_min (fun pr => gdist target (pts.getD pr.2 default)) (0, 0)
        (topCands target pts) htne
    refine ⟨k, hk, ?_, hmin, hstrict⟩
    unfold find_closest_route_point_index
    rw [hkeq]

theorem C4_two_stage_amended_witness :
    (([⟨0, 1⟩, ⟨0, 3⟩] : List Coordinates) ≠ []) ∧
    (List.Sorted lexLe (List.insertionSort lexLe (candList ⟨0, 0⟩ [⟨0, 1⟩, ⟨0, 3⟩])) ∧
    (List.insertionSort lexLe (candList ⟨0, 0⟩ [⟨0, 1⟩, ⟨0, 3⟩])).Perm
      (candList ⟨0, 0⟩ [⟨0, 1⟩, ⟨0, 3⟩]) ∧
    (topCands ⟨0, 0⟩ [⟨0, 1⟩, ⟨0, 3⟩]).length =
      min 10 ([⟨0, 1⟩, ⟨0, 3⟩] : List Coordinates).length ∧
    (∀ x ∈ (List.insertionSort lexLe (candList ⟨0, 0⟩ [⟨0, 1⟩, ⟨0, 3⟩])).drop 10,
      ∀ y ∈ topCands ⟨0, 0⟩ [⟨0, 1⟩, ⟨0, 3⟩], lexLe y x) ∧
    (([⟨0, 1⟩, ⟨0, 3⟩] : List Coordinates).length ≤ 10 →
      topCands ⟨0, 0⟩ [⟨0, 1⟩, ⟨0, 3⟩] =
        List.insertionSort lexLe (candList ⟨0, 0⟩ [⟨0, 1⟩, ⟨0, 3⟩])) ∧
    ∃ k, k < (topCands ⟨0, 0⟩ [⟨0, 1⟩, ⟨0, 3⟩]).length ∧
      find_closest_route_point_index gdistL1 ⟨0, 0⟩ [⟨0, 1⟩, ⟨0, 3⟩] =
        ((topCands ⟨0, 0⟩ [⟨0, 1⟩, ⟨0, 3⟩]).getD k (0, 0)).2 ∧
      (∀ m, m < (topCands ⟨0, 0⟩ [⟨0, 1⟩, ⟨0, 3⟩]).length →
        gdistL1 ⟨0, 0⟩ (([⟨0, 1⟩, ⟨0, 3⟩] : List Coordinates).getD
            ((topCands ⟨0, 0⟩ [⟨0, 1⟩, ⟨0, 3⟩]).getD k (0, 0)).2 default) ≤
          gdistL1 ⟨0, 0⟩ (([⟨0, 1⟩, ⟨0, 3⟩] : List Coordinates).getD
            ((topCands ⟨0, 0⟩ [⟨0, 1⟩, ⟨0, 3⟩]).getD m (0, 0)).2 default)) ∧
      (∀ m, m < k →
        gdistL1 ⟨0, 0⟩ (([⟨0, 1⟩, ⟨0, 3⟩] : List Coordinates).getD
            ((topCands ⟨0, 0⟩ [⟨0, 1⟩, ⟨0, 3⟩]).getD k (0, 0)).2 default) <
          gdistL1 ⟨0, 0⟩ (([⟨0, 1⟩, ⟨0, 3⟩] : List Coordinates).getD
            ((topCands ⟨0, 0⟩ [⟨0, 1⟩, ⟨0, 3⟩]).getD m (0, 0)).2 default))) :=
  ⟨by decide, C4_two_stage_amended gdistL1 ⟨0, 0⟩ [⟨0, 1⟩, ⟨0, 3⟩] (by decide)⟩
